import Mathlib

/-!
# Vending machine (State design pattern) — `src/VendingMachine.cpp`

A shallow embedding of the vending-machine controller and its four state
classes.  Conventions of the embedding:

* C++ `int` is `Int`; the results of `+=` and `-` on `int` are reduced into
  the 32-bit two's complement range by `wrapInt`, which is what the compiled
  program computes when a result leaves the range.  The members `value` and
  `price` hold `int` values; the theorems hold for every `Int` in them.
* A `Coin*` is the address of a coin object (`CoinPtr`, address 0 is
  `nullptr`); the coin objects that exist are kept in `heap`.  Reading through
  a pointer whose object does not exist, and `delete` of such a pointer, are
  undefined behaviour.
* A pointer `Item*` is an `Option Item` (`none` is `nullptr`); item objects
  are never deleted by the program.
* Undefined behaviour makes the enclosing method return `none` (no result).
* `std::map<int, Item*>` is a list of key/value pairs kept in increasing key
  order; `operator[]` inserts a `nullptr` entry for an absent key, exactly as
  the standard library does.
* The lines written to `cout` are collected, in order, in the field `cout`;
  a line is kept as the statement that wrote it together with the value it
  printed (`Line`), and `Line.text` gives its characters.
* The state object owned by the machine is one of the four state classes;
  none of them has a data member, so the object is its class tag.
-/

namespace VendingMachineCpp

/-! ## The type `int` -/

/-- The 32-bit two's complement value of an integer: the result that `int`
arithmetic keeps of the exact result. -/
def wrapInt (exact : Int) : Int :=
  (exact + 2147483648) % 4294967296 - 2147483648

/-- The integer is a value of type `int`: from `INT_MIN` to `INT_MAX`. -/
abbrev isInt (x : Int) : Prop := -2147483648 ≤ x ∧ x ≤ 2147483647

/-! ## Value classes -/

/-- Class `Coin`: the protected member `value`. -/
structure Coin where
  value : Int
  deriving DecidableEq, Repr

/-- Method `Coin::getValue`. -/
def Coin.getValue (coin : Coin) : Int := coin.value

/-- The object made by the constructor `OneRupee()`. -/
def OneRupee : Coin := { value := 1 }

/-- The object made by the constructor `FiveRupees()`. -/
def FiveRupees : Coin := { value := 5 }

/-- A `Coin*`: the address of a coin object; address 0 is `nullptr`. -/
abbrev CoinPtr := Nat

/-- The coin objects that exist (made by `new`, not yet deleted), each with
its address. -/
abbrev Heap := List (CoinPtr × Coin)

/-- The object stored at an address, if one is listed there. -/
def Heap.lookup : Heap → CoinPtr → Option Coin
  | [], _ => none
  | (address, object) :: rest, coin =>
    if address = coin then some object else Heap.lookup rest coin

/-- The object behind a pointer: `none` for `nullptr` and for a pointer
whose object does not exist. -/
def Heap.deref (heap : Heap) (coin : CoinPtr) : Option Coin :=
  if coin = 0 then none else heap.lookup coin

/-- The statement `delete coin`: no effect for `nullptr`; the object is
removed when it exists; `none` when it does not exist (it was deleted
before). -/
def Heap.delete (heap : Heap) (coin : CoinPtr) : Option Heap :=
  if coin = 0 then some heap
  else
    match heap.lookup coin with
    | none => none
    | some _ => some (heap.filter (fun entry => entry.1 != coin))

/-- The loop `for (auto coin : coinList) delete coin;`. -/
def Heap.deleteAll : Heap → List CoinPtr → Option Heap
  | heap, [] => some heap
  | heap, coin :: rest =>
    match heap.delete coin with
    | none => none
    | some remaining => Heap.deleteAll remaining rest

/-- The objects behind a list of pointers, `none` when one of them does not
exist. -/
def Heap.derefAll (heap : Heap) : List CoinPtr → Option (List Coin)
  | [] => some []
  | coin :: rest =>
    match heap.deref coin, Heap.derefAll heap rest with
    | some object, some objects => some (object :: objects)
    | _, _ => none

/-- Class `Item`: members `type` and `price`. -/
structure Item where
  type : String
  price : Int
  deriving DecidableEq, Repr

/-- Method `Item::getPrice`. -/
def Item.getPrice (item : Item) : Int := item.price

/-- Constructor `Coke()`. -/
def Coke : Item := { type := "Coke", price := 5 }

/-- Constructor `Soda()`. -/
def Soda : Item := { type := "Soda", price := 10 }

/-! ## `std::map<int, Item*>` -/

/-- The inventory map: pairs of product code and item pointer, in increasing
order of the code. -/
abbrev Inventory := List (Int × Option Item)

/-- Lookup without insertion (`std::map::find`): `none` when the key is
absent, `some p` with the stored pointer `p` otherwise. -/
def Inventory.find : Inventory → Int → Option (Option Item)
  | [], _ => none
  | (k, v) :: rest, code => if k = code then some v else Inventory.find rest code

/-- Store `v` under `code`, replacing the entry of an equal key or inserting
a new entry at its place in key order. -/
def Inventory.assign : Inventory → Int → Option Item → Inventory
  | [], code, v => [(code, v)]
  | (k, w) :: rest, code, v =>
    if code < k then (code, v) :: (k, w) :: rest
    else if k = code then (k, v) :: rest
    else (k, w) :: Inventory.assign rest code v

/-- The expression `inventory[code]` read as a value: the stored pointer when
the key is present; otherwise a `nullptr` entry is inserted and `nullptr` is
the value. -/
def Inventory.index (inv : Inventory) (code : Int) : Option Item × Inventory :=
  match inv.find code with
  | some v => (v, inv)
  | none => (none, inv.assign code none)

/-! ## The machine -/

/-- The output statements of the program, one constructor for each distinct
`cout << ... << endl` of the source, with the value it inserts. -/
inductive Line where
  | methodNotSupported
  | inIdleState
  | inAcceptingCoinState
  | inProductSelectionState
  | inDispensingState
  | acceptingCoin (value : Int)
  | cancelRequest
  | insufficientMoney
  | changeReturned (amount : Int)
  | collectingItem (type : String)
  deriving DecidableEq, Repr

/-- The characters of an output line. -/
def Line.text : Line → String
  | .methodNotSupported => "Method not supported"
  | .inIdleState => "Vending Machine is in IdleState"
  | .inAcceptingCoinState => "Vending Machine is in AcceptingCoinState"
  | .inProductSelectionState => "Vending Machine is in ProductSelectionState"
  | .inDispensingState => "Vending Machine is in DispensingState"
  | .acceptingCoin value => "Accepting Coin " ++ toString value
  | .cancelRequest => "Cancel Request and Returning the money"
  | .insufficientMoney => "Insufficient Money"
  | .changeReturned amount => "Amount of extra change returned is: " ++ toString amount
  | .collectingItem type => "Collecting Item: " ++ type

/-- The dynamic class of the state object held by the machine. -/
inductive State where
  | IdleState
  | AcceptingCoinState
  | ProductSelectionState
  | DispensingState
  deriving DecidableEq, Repr

/-- Class `VendingMachine`: members `coinList`, `vendingMachineState` and
`inventory`, together with the program state outside the object on which its
methods act: the lines written to standard output so far and the coin
objects that exist. -/
structure VendingMachine where
  coinList : List CoinPtr
  vendingMachineState : State
  inventory : Inventory
  cout : List Line
  heap : Heap
  deriving DecidableEq, Repr

namespace VendingMachine

/-- One statement `cout << line << endl`. -/
def print (machine : VendingMachine) (line : Line) : VendingMachine :=
  { machine with cout := machine.cout ++ [line] }

/-- Method `VendingMachine::getVendingMachineState`. -/
def getVendingMachineState (machine : VendingMachine) : State :=
  machine.vendingMachineState

/-- Method `VendingMachine::setVendingMachineState` (the old state object is
deleted; its destructor has no effect). -/
def setVendingMachineState (machine : VendingMachine) (state : State) : VendingMachine :=
  { machine with vendingMachineState := state }

/-- Method `VendingMachine::getItemFromInventory`: `return inventory[code];`. -/
def getItemFromInventory (machine : VendingMachine) (code : Int) :
    Option Item × VendingMachine :=
  let r := machine.inventory.index code
  (r.1, { machine with inventory := r.2 })

/-- Method `VendingMachine::getCoinList`. -/
def getCoinList (machine : VendingMachine) : List CoinPtr := machine.coinList

/-- Method `VendingMachine::addCoinToCoinList`. -/
def addCoinToCoinList (machine : VendingMachine) (coin : CoinPtr) : VendingMachine :=
  { machine with coinList := machine.coinList ++ [coin] }

/-- Method `VendingMachine::resetCoinList`: every coin of the list is
deleted, then the list is cleared; `none` when a `delete` is undefined. -/
def resetCoinList (machine : VendingMachine) : Option VendingMachine :=
  match machine.heap.deleteAll machine.coinList with
  | none => none
  | some remaining => some { machine with coinList := [], heap := remaining }

end VendingMachine

/-! ## Constructors of the state classes (each announces itself) -/

/-- Constructor `IdleState()`. -/
def IdleState.construct (machine : VendingMachine) : VendingMachine :=
  machine.print .inIdleState

/-- Constructor `AcceptingCoinState()`. -/
def AcceptingCoinState.construct (machine : VendingMachine) : VendingMachine :=
  machine.print .inAcceptingCoinState

/-- Constructor `ProductSelectionState()`. -/
def ProductSelectionState.construct (machine : VendingMachine) : VendingMachine :=
  machine.print .inProductSelectionState

/-- The inventory loop of the constructor `VendingMachine()`:
codes `0, 1, 2` get a `Coke`, codes `3, 4, 5` a `Soda`. -/
def hardCodedInventory : Inventory :=
  (List.range 6).foldl
    (fun inv i => if i < 3 then inv.assign (i : Int) (some Coke)
                  else inv.assign (i : Int) (some Soda))
    []

/-- Constructor `VendingMachine()` in a program whose console already shows
`cout` and in which the coin objects `heap` exist. -/
def VendingMachine.construct (cout : List Line) (heap : Heap) : VendingMachine :=
  let machine : VendingMachine :=
    { coinList := [], vendingMachineState := .IdleState, inventory := [], cout := cout,
      heap := heap }
  let machine := IdleState.construct machine
  { machine with inventory := hardCodedInventory }

/-- A machine constructed at program start (empty console, no coin object
made yet). -/
def VendingMachine.fresh : VendingMachine := VendingMachine.construct [] []

/-! ## Base class `State`: every method is "not supported" -/

namespace State

/-- Method `State::pressInsertCoinButton`. -/
def pressInsertCoinButton (machine : VendingMachine) : VendingMachine :=
  machine.print .methodNotSupported

/-- Method `State::insertCoin`. -/
def insertCoin (machine : VendingMachine) (_coin : CoinPtr) : VendingMachine :=
  machine.print .methodNotSupported

/-- Method `State::pressSelectProductButton`. -/
def pressSelectProductButton (machine : VendingMachine) : VendingMachine :=
  machine.print .methodNotSupported

/-- Method `State::selectProduct`. -/
def selectProduct (machine : VendingMachine) (_code : Int) : VendingMachine :=
  machine.print .methodNotSupported

/-- Method `State::collectProduct`: returns `nullptr`. -/
def collectProduct (machine : VendingMachine) (_code : Int) : Option Item × VendingMachine :=
  (none, machine.print .methodNotSupported)

/-- Method `State::cancelRequest`: returns the empty vector. -/
def cancelRequest (machine : VendingMachine) : List CoinPtr × VendingMachine :=
  ([], machine.print .methodNotSupported)

end State

/-! ## The overriding methods of the four state classes -/

/-- Method `IdleState::pressInsertCoinButton`. -/
def IdleState.pressInsertCoinButton (machine : VendingMachine) : VendingMachine :=
  (AcceptingCoinState.construct machine).setVendingMachineState .AcceptingCoinState

/-- Method `AcceptingCoinState::insertCoin`; `none` when `coin->getValue()`
reads through a pointer without an object. -/
def AcceptingCoinState.insertCoin (machine : VendingMachine) (coin : CoinPtr) :
    Option VendingMachine :=
  match machine.heap.deref coin with
  | none => none
  | some object =>
    some ((machine.print (.acceptingCoin object.getValue)).addCoinToCoinList coin)

/-- Method `AcceptingCoinState::pressSelectProductButton`. -/
def AcceptingCoinState.pressSelectProductButton (machine : VendingMachine) : VendingMachine :=
  (ProductSelectionState.construct machine).setVendingMachineState .ProductSelectionState

/-- Method `AcceptingCoinState::cancelRequest`: the returned vector is the
copy of the coin list taken before `resetCoinList` deletes the coins. -/
def AcceptingCoinState.cancelRequest (machine : VendingMachine) :
    Option (List CoinPtr × VendingMachine) :=
  let machine := machine.print .cancelRequest
  let returnCoins := machine.getCoinList
  let machine := (IdleState.construct machine).setVendingMachineState .IdleState
  match machine.resetCoinList with
  | none => none
  | some machine => some (returnCoins, machine)

/-- Method `ProductSelectionState::getChange`. -/
def ProductSelectionState.getChange (amount : Int) : Int := amount

/-- Method `ProductSelectionState::cancelRequest`: the returned vector is the
copy of the coin list taken before `resetCoinList` deletes the coins. -/
def ProductSelectionState.cancelRequest (machine : VendingMachine) :
    Option (List CoinPtr × VendingMachine) :=
  let machine := machine.print .cancelRequest
  let returnCoins := machine.getCoinList
  let machine := (IdleState.construct machine).setVendingMachineState .IdleState
  match machine.resetCoinList with
  | none => none
  | some machine => some (returnCoins, machine)

/-- Method `DispensingState::collectProduct`; `none` when `item` is `nullptr`
at `item->type`. -/
def DispensingState.collectProduct (machine : VendingMachine) (code : Int) :
    Option (Option Item × VendingMachine) :=
  let r := machine.getItemFromInventory code
  let machine := r.2
  match r.1 with
  | none => none
  | some item =>
    let machine := machine.print (.collectingItem item.type)
    let machine := (IdleState.construct machine).setVendingMachineState .IdleState
    some (some item, machine)

/-- Constructor `DispensingState(machine, code)`: announces itself and calls
`collectProduct(machine, code)`, whose result it drops. -/
def DispensingState.construct (machine : VendingMachine) (code : Int) : Option VendingMachine :=
  let machine := machine.print .inDispensingState
  (DispensingState.collectProduct machine code).map Prod.snd

/-- The loop of `selectProduct` that adds up the coin values in the `int`
variable `amountPaidByCustomer`, whose value before the remaining coins is
the last argument; `none` when a coin of the list has no object. -/
def amountPaid (heap : Heap) : List CoinPtr → Int → Option Int
  | [], amountPaidByCustomer => some amountPaidByCustomer
  | coin :: rest, amountPaidByCustomer =>
    match heap.deref coin with
    | none => none
    | some object => amountPaid heap rest (wrapInt (amountPaidByCustomer + object.getValue))

/-- Method `ProductSelectionState::selectProduct`; `none` when a coin of the
list has no object, when `item` is `nullptr` at `item->getPrice()`, or when
the `cancelRequest` it calls has no result.  The vector returned by
`cancelRequest` is dropped. -/
def ProductSelectionState.selectProduct (machine : VendingMachine) (code : Int) :
    Option VendingMachine :=
  let r := machine.getItemFromInventory code
  let machine := r.2
  match amountPaid machine.heap machine.getCoinList 0 with
  | none => none
  | some amountPaidByCustomer =>
    match r.1 with
    | none => none
    | some item =>
      if amountPaidByCustomer < item.getPrice then
        match ProductSelectionState.cancelRequest machine with
        | none => none
        | some cancelled => some (cancelled.2.print .insufficientMoney)
      else
        let machine :=
          if amountPaidByCustomer > item.getPrice then
            let changeReturned :=
              ProductSelectionState.getChange (wrapInt (amountPaidByCustomer - item.getPrice))
            machine.print (.changeReturned changeReturned)
          else machine
        (DispensingState.construct machine code).map
          (fun machine => machine.setVendingMachineState .DispensingState)

/-! ## Virtual dispatch: `machine->getVendingMachineState()->method(machine, ...)` -/

namespace VendingMachine

/-- Call of `pressInsertCoinButton` on the current state object. -/
def pressInsertCoinButton (machine : VendingMachine) : VendingMachine :=
  match machine.getVendingMachineState with
  | .IdleState => IdleState.pressInsertCoinButton machine
  | _ => State.pressInsertCoinButton machine

/-- Call of `insertCoin` on the current state object. -/
def insertCoin (machine : VendingMachine) (coin : CoinPtr) : Option VendingMachine :=
  match machine.getVendingMachineState with
  | .AcceptingCoinState => AcceptingCoinState.insertCoin machine coin
  | _ => some (State.insertCoin machine coin)

/-- Call of `pressSelectProductButton` on the current state object. -/
def pressSelectProductButton (machine : VendingMachine) : VendingMachine :=
  match machine.getVendingMachineState with
  | .AcceptingCoinState => AcceptingCoinState.pressSelectProductButton machine
  | _ => State.pressSelectProductButton machine

/-- Call of `selectProduct` on the current state object. -/
def selectProduct (machine : VendingMachine) (code : Int) : Option VendingMachine :=
  match machine.getVendingMachineState with
  | .ProductSelectionState => ProductSelectionState.selectProduct machine code
  | _ => some (State.selectProduct machine code)

/-- Call of `collectProduct` on the current state object. -/
def collectProduct (machine : VendingMachine) (code : Int) :
    Option (Option Item × VendingMachine) :=
  match machine.getVendingMachineState with
  | .DispensingState => DispensingState.collectProduct machine code
  | _ => some (State.collectProduct machine code)

/-- Call of `cancelRequest` on the current state object. -/
def cancelRequest (machine : VendingMachine) : Option (List CoinPtr × VendingMachine) :=
  match machine.getVendingMachineState with
  | .AcceptingCoinState => AcceptingCoinState.cancelRequest machine
  | .ProductSelectionState => ProductSelectionState.cancelRequest machine
  | _ => some (State.cancelRequest machine)

end VendingMachine

/-! ## Customer actions as data -/

/-- The six customer actions, with their arguments. -/
inductive Action where
  | pressInsertCoinButton
  | insertCoin (coin : CoinPtr)
  | pressSelectProductButton
  | selectProduct (code : Int)
  | collectProduct (code : Int)
  | cancelRequest
  deriving DecidableEq, Repr

/-- What a call hands back: nothing (`void`), an `Item*`, or a
`vector<Coin*>`. -/
inductive Returned where
  | void
  | item (pointer : Option Item)
  | coins (returnCoins : List CoinPtr)
  deriving DecidableEq, Repr

/-- One customer action on the machine; `none` when the call has no result. -/
def step (machine : VendingMachine) : Action → Option (Returned × VendingMachine)
  | .pressInsertCoinButton => some (.void, machine.pressInsertCoinButton)
  | .insertCoin coin => (machine.insertCoin coin).map (fun after => (.void, after))
  | .pressSelectProductButton => some (.void, machine.pressSelectProductButton)
  | .selectProduct code => (machine.selectProduct code).map (fun after => (.void, after))
  | .collectProduct code =>
    (machine.collectProduct code).map (fun r => (.item r.1, r.2))
  | .cancelRequest =>
    (machine.cancelRequest).map (fun r => (.coins r.1, r.2))

/-- A sequence of customer actions, first action first. -/
def run (machine : VendingMachine) : List Action → Option VendingMachine
  | [] => some machine
  | action :: rest =>
    match step machine action with
    | none => none
    | some r => run r.2 rest

/-- Whether a line is a `Collecting Item: ...` line. -/
def Line.isCollect : Line → Bool
  | .collectingItem _ => true
  | _ => false

/-- The number of lines `Collecting Item: ...` among `lines`: how many times
an item was handed out. -/
def collectCount (lines : List Line) : Nat :=
  (lines.filter Line.isCollect).length

/-! ## The transition table of the specification (§4.1) -/

/-- The rows of the table: which action the table lists for which state. -/
def listed : State → Action → Bool
  | .IdleState, .pressInsertCoinButton => true
  | .AcceptingCoinState, .insertCoin _ => true
  | .AcceptingCoinState, .pressSelectProductButton => true
  | .AcceptingCoinState, .cancelRequest => true
  | .ProductSelectionState, .selectProduct _ => true
  | .ProductSelectionState, .cancelRequest => true
  | .DispensingState, .collectProduct _ => true
  | _, _ => false

/-- The rejected outcome of an action: nothing, a null item, or an empty coin
list, according to the return type of the action. -/
def rejected : Action → Returned
  | .collectProduct _ => .item none
  | .cancelRequest => .coins []
  | _ => .void

/-! ## Programs and machines used as concrete inputs -/

/-- The coin objects made by `new` for the constructors `coins`, in this
order, at the addresses `first`, `first + 1`, and so on. -/
def allocate (first : CoinPtr) : List Coin → Heap
  | [] => []
  | coin :: rest => (first, coin) :: allocate (first + 1) rest

/-- The addresses `first`, `first + 1`, ... of `count` objects. -/
def addresses (first : CoinPtr) : Nat → List CoinPtr
  | 0 => []
  | count + 1 => first :: addresses (first + 1) count

/-- The actions of `main` up to `pressSelectProductButton`, for the coin
pointers `coins`. -/
def selectingActions (coins : List CoinPtr) : List Action :=
  Action.pressInsertCoinButton :: coins.map Action.insertCoin
    ++ [Action.pressSelectProductButton]

/-- The machine that accepts coins after `pressInsertCoinButton` and
`insertCoin(machine, new ...)` for each of `coins`, whose objects are at the
addresses 1, 2, ... -/
def accepting (coins : List Coin) : VendingMachine :=
  { coinList := addresses 1 coins.length
    vendingMachineState := .AcceptingCoinState
    inventory := hardCodedInventory
    cout := [Line.inIdleState, Line.inAcceptingCoinState]
      ++ coins.map (fun coin => Line.acceptingCoin coin.value)
    heap := allocate 1 coins }

/-- The machine of `main` after `pressInsertCoinButton`, `insertCoin(machine,
new ...)` for each of `coins`, and `pressSelectProductButton`; the coin
objects are at the addresses 1, 2, ... -/
def selecting (coins : List Coin) : VendingMachine :=
  { coinList := addresses 1 coins.length
    vendingMachineState := .ProductSelectionState
    inventory := hardCodedInventory
    cout := [Line.inIdleState, Line.inAcceptingCoinState]
      ++ coins.map (fun coin => Line.acceptingCoin coin.value)
      ++ [Line.inProductSelectionState]
    heap := allocate 1 coins }

/-- A machine in the dispensing state: `selecting [5, 5]` on which the state
alone has been replaced. -/
def dispensingExample : VendingMachine :=
  (selecting [FiveRupees, FiveRupees]).setVendingMachineState .DispensingState

/-- A coin object of a further class derived from `Coin` whose constructor
sets `value = INT_MAX`. -/
def maxCoin : Coin := { value := 2147483647 }

end VendingMachineCpp

/-!
# Parking lot (Strategy and Singleton patterns) — `src/ParkingLot.cpp`

The embedding covers the member `spots` of `ParkingLot` and the results of
`park` and `leave`.  Conventions:

* A `Vehicle*` is an `Option Vehicle` (`none` is `nullptr`); a `Vehicle` is
  the address of a vehicle object, so that `spot == vehicle` is equality of
  addresses.
* `vector::operator[]` outside the range of the vector and a member call
  through `nullptr` are undefined behaviour: the method returns `none`.
* `setParkedTime`, `calculateParkedHours` and the printed lines read the
  system clock and compute in `double`; they act on the vehicle object and on
  the console, never on `spots`, and are left out.
-/

namespace ParkingLotCpp

/-- A vehicle object, known by its address. -/
structure Vehicle where
  address : Nat
  deriving DecidableEq, Repr

/-- The type of the member `spots`: `vector<vector<vector<Vehicle*>>>`. -/
abbrev Spots := List (List (List (Option Vehicle)))

/-- Class `ParkingLot`: members `floors`, `rows`, `spotPerRows`, `spots`. -/
structure ParkingLot where
  floors : Int
  rows : Int
  spotPerRows : Int
  spots : Spots
  deriving DecidableEq, Repr

/-- Constructor `ParkingLot(_floors, _rows, _spotPerRows)` for sizes that are
not negative: every spot is `nullptr`. -/
def ParkingLot.construct (floors rows spotPerRows : Nat) : ParkingLot :=
  { floors := floors
    rows := rows
    spotPerRows := spotPerRows
    spots := List.replicate floors (List.replicate rows (List.replicate spotPerRows none)) }

/-- The value of `spots[floor][row][spot]`; `none` when an index is out of
range. -/
def Spots.read (spots : Spots) (floor row spot : Int) : Option (Option Vehicle) :=
  if 0 ≤ floor ∧ 0 ≤ row ∧ 0 ≤ spot then
    match spots[floor.toNat]? with
    | none => none
    | some theFloor =>
      match theFloor[row.toNat]? with
      | none => none
      | some theRow => theRow[spot.toNat]?
  else none

/-- The assignment `spots[floor][row][spot] = vehicle` at indices in range. -/
def Spots.write (spots : Spots) (floor row spot : Int) (vehicle : Option Vehicle) : Spots :=
  match spots[floor.toNat]? with
  | none => spots
  | some theFloor =>
    match theFloor[row.toNat]? with
    | none => spots
    | some theRow =>
      spots.set floor.toNat (theFloor.set row.toNat (theRow.set spot.toNat vehicle))

/-- Method `ParkingLot::park`. -/
def ParkingLot.park (lot : ParkingLot) (vehicle : Option Vehicle) (floor row spot : Int) :
    Option (Bool × ParkingLot) :=
  match lot.spots.read floor row spot with
  | none => none
  | some (some _) => some (false, lot)
  | some none =>
    match vehicle with
    | none => none
    | some _ => some (true, { lot with spots := lot.spots.write floor row spot vehicle })

/-- The innermost loop of `leave` over one row: the row with the first spot
equal to `vehicle` set to `nullptr`, or `none` when no spot is equal to it. -/
def leaveRow : List (Option Vehicle) → Option Vehicle → Option (List (Option Vehicle))
  | [], _ => none
  | spot :: rest, vehicle =>
    if spot = vehicle then some (none :: rest)
    else (leaveRow rest vehicle).map (fun cleared => spot :: cleared)

/-- The loop of `leave` over the rows of one floor. -/
def leaveFloor : List (List (Option Vehicle)) → Option Vehicle →
    Option (List (List (Option Vehicle)))
  | [], _ => none
  | row :: rest, vehicle =>
    match leaveRow row vehicle with
    | some cleared => some (cleared :: rest)
    | none => (leaveFloor rest vehicle).map (fun later => row :: later)

/-- The loop of `leave` over the floors. -/
def leaveSpots : Spots → Option Vehicle → Option Spots
  | [], _ => none
  | floor :: rest, vehicle =>
    match leaveFloor floor vehicle with
    | some cleared => some (cleared :: rest)
    | none => (leaveSpots rest vehicle).map (fun later => floor :: later)

/-- Method `ParkingLot::leave`; when a spot equal to `vehicle` is found and
`vehicle` is `nullptr`, `calculateParkedHours` calls `getParkedTime` through
`nullptr`. -/
def ParkingLot.leave (lot : ParkingLot) (vehicle : Option Vehicle) :
    Option (Bool × ParkingLot) :=
  match leaveSpots lot.spots vehicle with
  | none => some (false, lot)
  | some cleared =>
    match vehicle with
    | none => none
    | some _ => some (true, { lot with spots := cleared })

/-- The vehicle is in no spot of the grid. -/
def Spots.lacks (spots : Spots) (vehicle : Vehicle) : Prop :=
  ∀ floor ∈ spots, ∀ row ∈ floor, some vehicle ∉ row

/-- The lot of `main`: `getInstance(4, 2, 8)`. -/
def mainLot : ParkingLot := ParkingLot.construct 4 2 8

/-- The car of `main`. -/
def car : Vehicle := { address := 1 }

/-- The bus of `main`. -/
def bus : Vehicle := { address := 2 }

/-- The lot of `main` holding the bus at floor 1, row 0, spot 2, as after the
call `park(bus, 1, 0, 2)` of `main`. -/
def lotWithBus : ParkingLot :=
  { mainLot with spots := mainLot.spots.write 1 0 2 (some bus) }

end ParkingLotCpp

namespace VendingMachineCpp

/-! ## Auxiliary facts about the embedding -/

/-- An `int` value is kept as it is. -/
theorem wrapInt_of_isInt {x : Int} (h : isInt x) : wrapInt x = x := by
  unfold wrapInt
  obtain ⟨hlow, hhigh⟩ := h
  omega

/-- Reducing an intermediate result does not change the reduced sum. -/
theorem wrapInt_add_left (a b : Int) : wrapInt (wrapInt a + b) = wrapInt (a + b) := by
  unfold wrapInt
  omega

/-- The summing loop of `selectProduct` over coins that all exist: the sum of
their values, reduced to an `int`. -/
theorem amountPaid_of_derefAll {heap : Heap} {pointers : List CoinPtr} {coins : List Coin}
    (h : heap.derefAll pointers = some coins) (start : Int) :
    amountPaid heap pointers (wrapInt start)
      = some (wrapInt (start + (coins.map Coin.value).sum)) := by
  induction pointers generalizing coins start with
  | nil =>
    simp only [Heap.derefAll, Option.some.injEq] at h
    subst h
    simp [amountPaid]
  | cons coin rest ih =>
    simp only [Heap.derefAll] at h
    cases hfirst : heap.deref coin with
    | none => simp [hfirst] at h
    | some object =>
      cases hrest : heap.derefAll rest with
      | none => simp [hfirst, hrest] at h
      | some objects =>
        simp only [hfirst, hrest, Option.some.injEq] at h
        subst h
        simp only [amountPaid, hfirst, Coin.getValue, wrapInt_add_left, List.map_cons,
          List.sum_cons]
        rw [ih hrest (start + object.value), add_assoc]

/-- The loop started at 0, for a sum that is an `int`. -/
theorem amountPaid_of_isInt {heap : Heap} {pointers : List CoinPtr} {coins : List Coin}
    (h : heap.derefAll pointers = some coins) (hsum : isInt (coins.map Coin.value).sum) :
    amountPaid heap pointers 0 = some (coins.map Coin.value).sum := by
  have hloop := amountPaid_of_derefAll h 0
  have hzero : wrapInt 0 = 0 := by decide
  rw [hzero, zero_add, wrapInt_of_isInt hsum] at hloop
  exact hloop

/-- A key that is present is read by `operator[]` without changing the map. -/
theorem Inventory.index_of_find {inv : Inventory} {code : Int} {v : Option Item}
    (h : inv.find code = some v) : inv.index code = (v, inv) := by
  simp [Inventory.index, h]

/-- Reading a present code leaves the machine as it is. -/
theorem VendingMachine.getItemFromInventory_of_find {machine : VendingMachine} {code : Int}
    {v : Option Item} (h : machine.inventory.find code = some v) :
    machine.getItemFromInventory code = (v, machine) := by
  simp [VendingMachine.getItemFromInventory, Inventory.index_of_find h]

/-- The result of `selectProduct` when the amount computed from the coins
covers the price: only the state and the console change. -/
theorem selectProduct_of_covered {machine : VendingMachine} {code : Int} {item : Item}
    {paid : Int}
    (hs : machine.vendingMachineState = .ProductSelectionState)
    (hc : machine.inventory.find code = some (some item))
    (hpaid : amountPaid machine.heap machine.coinList 0 = some paid)
    (hp : item.price ≤ paid) :
    machine.selectProduct code =
      some { machine with
        vendingMachineState := .DispensingState
        cout := machine.cout
          ++ (if item.price < paid
              then [Line.changeReturned (wrapInt (paid - item.price))] else [])
          ++ [Line.inDispensingState, Line.collectingItem item.type, Line.inIdleState] } := by
  have hnot : ¬ paid < item.price := not_lt.mpr hp
  rcases machine with ⟨coinList, state, inventory, cout, heap⟩
  simp only at hs hc hpaid
  subst hs
  have hidx : inventory.index code = (some item, inventory) := Inventory.index_of_find hc
  by_cases hgt : item.price < paid
  · simp [VendingMachine.selectProduct, VendingMachine.getVendingMachineState,
      ProductSelectionState.selectProduct, VendingMachine.getItemFromInventory, hidx,
      VendingMachine.getCoinList, hpaid, Item.getPrice, hnot, hgt, DispensingState.construct,
      DispensingState.collectProduct, ProductSelectionState.getChange, IdleState.construct,
      VendingMachine.setVendingMachineState, VendingMachine.print]
  · simp [VendingMachine.selectProduct, VendingMachine.getVendingMachineState,
      ProductSelectionState.selectProduct, VendingMachine.getItemFromInventory, hidx,
      VendingMachine.getCoinList, hpaid, Item.getPrice, hnot, hgt, DispensingState.construct,
      DispensingState.collectProduct, IdleState.construct,
      VendingMachine.setVendingMachineState, VendingMachine.print]

/-- A `cancelRequest` of the product-selection state that returns hands back
the coin list as it was and leaves the machine idle with an empty coin
list. -/
theorem ProductSelectionState.cancelRequest_eq_some {machine : VendingMachine}
    {cancelled : List CoinPtr × VendingMachine}
    (h : ProductSelectionState.cancelRequest machine = some cancelled) :
    cancelled.1 = machine.coinList
      ∧ cancelled.2.vendingMachineState = State.IdleState
      ∧ cancelled.2.coinList = [] := by
  rcases machine with ⟨coinList, state, inventory, cout, heap⟩
  simp only [ProductSelectionState.cancelRequest, VendingMachine.resetCoinList,
    VendingMachine.print, IdleState.construct, VendingMachine.setVendingMachineState,
    VendingMachine.getCoinList] at h
  cases hdelete : Heap.deleteAll heap coinList with
  | none => simp [hdelete] at h
  | some remaining =>
    simp only [hdelete, Option.some.injEq] at h
    subst h
    exact ⟨rfl, rfl, rfl⟩

/-- A `selectProduct` issued in the product-selection state that ends in the
dispensing state found the item of the code, computed an amount that covers
its price, and changed only the state and the console. -/
theorem selectProduct_dispensing_inv {machine dispensing : VendingMachine} {code : Int}
    (hs : machine.vendingMachineState = .ProductSelectionState)
    (hsel : machine.selectProduct code = some dispensing)
    (hdisp : dispensing.vendingMachineState = .DispensingState) :
    ∃ item paid, machine.inventory.find code = some (some item)
      ∧ amountPaid machine.heap machine.coinList 0 = some paid
      ∧ item.price ≤ paid
      ∧ dispensing.coinList = machine.coinList
      ∧ dispensing.inventory = machine.inventory
      ∧ dispensing.heap = machine.heap := by
  cases hfind : machine.inventory.find code with
  | none =>
    have hidx : machine.inventory.index code = (none, machine.inventory.assign code none) := by
      simp [Inventory.index, hfind]
    simp only [VendingMachine.selectProduct, VendingMachine.getVendingMachineState, hs,
      ProductSelectionState.selectProduct, VendingMachine.getItemFromInventory, hidx] at hsel
    split at hsel <;> simp at hsel
  | some pointer =>
    have hget := VendingMachine.getItemFromInventory_of_find hfind
    cases pointer with
    | none =>
      simp only [VendingMachine.selectProduct, VendingMachine.getVendingMachineState, hs,
        ProductSelectionState.selectProduct, hget] at hsel
      split at hsel <;> simp at hsel
    | some item =>
      cases hamount : amountPaid machine.heap machine.coinList 0 with
      | none =>
        simp [VendingMachine.selectProduct, VendingMachine.getVendingMachineState, hs,
          ProductSelectionState.selectProduct, hget, VendingMachine.getCoinList, hamount]
          at hsel
      | some paid =>
        by_cases hlt : paid < item.price
        · exfalso
          simp only [VendingMachine.selectProduct, VendingMachine.getVendingMachineState, hs,
            ProductSelectionState.selectProduct, hget, VendingMachine.getCoinList, hamount,
            Item.getPrice, hlt, if_true] at hsel
          cases hcancel : ProductSelectionState.cancelRequest machine with
          | none => simp [hcancel] at hsel
          | some cancelled =>
            simp only [hcancel, Option.some.injEq] at hsel
            have hidle := (ProductSelectionState.cancelRequest_eq_some hcancel).2.1
            rw [← hsel] at hdisp
            simp [VendingMachine.print, hidle] at hdisp
        · have hp : item.price ≤ paid := not_lt.mp hlt
          have hform := selectProduct_of_covered hs hfind hamount hp
          rw [hform] at hsel
          simp only [Option.some.injEq] at hsel
          subst hsel
          exact ⟨item, paid, rfl, rfl, hp, rfl, rfl, rfl⟩

/-- The result of `collectProduct` in the dispensing state for a code whose
item is present. -/
theorem collectProduct_of_dispensing {machine : VendingMachine} {code : Int} {item : Item}
    (hs : machine.vendingMachineState = .DispensingState)
    (hc : machine.inventory.find code = some (some item)) :
    machine.collectProduct code =
      some (some item,
        { machine with
          vendingMachineState := .IdleState
          cout := machine.cout ++ [Line.collectingItem item.type, Line.inIdleState] }) := by
  simp [VendingMachine.collectProduct, VendingMachine.getVendingMachineState, hs,
    DispensingState.collectProduct, VendingMachine.getItemFromInventory_of_find hc,
    IdleState.construct, VendingMachine.setVendingMachineState, VendingMachine.print]

/-- The machine `accepting [5, 5]` is the one reached by the calls of `main`
with two new coins of 5. -/
theorem accepting_two_fives_is_run :
    run (VendingMachine.construct [] (allocate 1 [FiveRupees, FiveRupees]))
        [Action.pressInsertCoinButton, Action.insertCoin 1, Action.insertCoin 2]
      = some (accepting [FiveRupees, FiveRupees]) := by
  decide

/-- The machine `selecting [5, 5]` is the one reached by the calls of `main`
up to `pressSelectProductButton`. -/
theorem selecting_two_fives_is_run :
    run (VendingMachine.construct [] (allocate 1 [FiveRupees, FiveRupees]))
        (selectingActions [1, 2])
      = some (selecting [FiveRupees, FiveRupees]) := by
  decide

/-- The machine `selecting [5]` is the one reached by the same calls with
one new coin of 5. -/
theorem selecting_one_five_is_run :
    run (VendingMachine.construct [] (allocate 1 [FiveRupees])) (selectingActions [1])
      = some (selecting [FiveRupees]) := by
  decide

/-- The machine `selecting [INT_MAX, 1]` is the one reached by the same calls
with a coin of value `INT_MAX` and a coin of 1. -/
theorem selecting_overflow_is_run :
    run (VendingMachine.construct [] (allocate 1 [maxCoin, OneRupee])) (selectingActions [1, 2])
      = some (selecting [maxCoin, OneRupee]) := by
  decide

/-! ## Rejected actions -/

/-- C1: an action that the transition table does not list for the current
state returns the rejected outcome (nothing, a null item, or an empty coin
list); the machine afterwards differs from the machine before only by the
line "Method not supported", so the state, the coin list and the inventory
are exactly as they were (and no coin object is touched). -/
theorem unlisted_action_rejected (machine : VendingMachine) (action : Action)
    (h : listed machine.vendingMachineState action = false) :
    ∃ after, step machine action = some (rejected action, after)
      ∧ after.vendingMachineState = machine.vendingMachineState
      ∧ after.coinList = machine.coinList
      ∧ after.inventory = machine.inventory
      ∧ after.cout = machine.cout ++ [Line.methodNotSupported]
      ∧ after.heap = machine.heap := by
  rcases machine with ⟨coinList, state, inventory, cout, heap⟩
  refine ⟨VendingMachine.print ⟨coinList, state, inventory, cout, heap⟩ .methodNotSupported,
    ?_, rfl, rfl, rfl, rfl, rfl⟩
  cases state <;> cases action <;> first
    | rfl
    | (simp [listed] at h)

/-- C1 at a concrete input: `collectProduct(0)` on a freshly constructed
(idle) machine. -/
theorem unlisted_action_rejected_witness :
    listed VendingMachine.fresh.vendingMachineState (Action.collectProduct 0) = false
      ∧ ∃ after, step VendingMachine.fresh (Action.collectProduct 0)
          = some (rejected (Action.collectProduct 0), after)
        ∧ after.vendingMachineState = VendingMachine.fresh.vendingMachineState
        ∧ after.coinList = VendingMachine.fresh.coinList
        ∧ after.inventory = VendingMachine.fresh.inventory
        ∧ after.cout = VendingMachine.fresh.cout ++ [Line.methodNotSupported]
        ∧ after.heap = VendingMachine.fresh.heap :=
  ⟨by decide, unlisted_action_rejected VendingMachine.fresh (Action.collectProduct 0) (by decide)⟩

/-! ## Cancellation -/

/-- C2: the code on the coins `[5, 5]` (two coin objects, at the addresses 1
and 2), cancelled while the machine accepts coins and cancelled after
`pressSelectProductButton`: `cancelRequest` returns the two pointers in
order, the coin list is empty and the machine idle, but both coin objects
have been deleted by `resetCoinList`, so nothing is behind the returned
pointers; and with one coin object inserted twice the second `delete` is
undefined and `cancelRequest` has no result. -/
theorem cancelRequest_returns_deleted_coins :
    (accepting [FiveRupees, FiveRupees]).heap.derefAll [1, 2]
      = some [FiveRupees, FiveRupees]
    ∧ (step (accepting [FiveRupees, FiveRupees]) Action.cancelRequest).map
        (fun r => (r.1, r.2.coinList, r.2.vendingMachineState))
      = some (Returned.coins [1, 2], [], State.IdleState)
    ∧ (step (accepting [FiveRupees, FiveRupees]) Action.cancelRequest).map
        (fun r => (r.2.heap.deref 1, r.2.heap.deref 2, r.2.heap))
      = some (none, none, [])
    ∧ (step (selecting [FiveRupees, FiveRupees]) Action.cancelRequest).map
        (fun r => (r.1, r.2.coinList, r.2.vendingMachineState))
      = some (Returned.coins [1, 2], [], State.IdleState)
    ∧ (step (selecting [FiveRupees, FiveRupees]) Action.cancelRequest).map
        (fun r => (r.2.heap.deref 1, r.2.heap.deref 2, r.2.heap))
      = some (none, none, [])
    ∧ (run (VendingMachine.construct [] (allocate 1 [FiveRupees]))
        [Action.pressInsertCoinButton, Action.insertCoin 1, Action.insertCoin 1]).map
        (fun after => (after.vendingMachineState, after.coinList))
      = some (State.AcceptingCoinState, [1, 1])
    ∧ run (VendingMachine.construct [] (allocate 1 [FiveRupees]))
        [Action.pressInsertCoinButton, Action.insertCoin 1, Action.insertCoin 1,
          Action.cancelRequest]
      = none := by
  refine ⟨?_, ?_, ?_, ?_, ?_, ?_, ?_⟩ <;> decide

/-! ## Product selection -/

/-- C3: the code on one coin of 5 (at address 1) and code 3 (a Soda, price
10): `selectProduct` returns nothing (`void`), the vector returned by the
`cancelRequest` it calls is dropped, and the coin object has been deleted, so
no refund reaches the caller; the machine is idle with an empty coin list
and the console shows the cancel line and "Insufficient Money". -/
theorem underpayment_gives_no_refund :
    (selecting [FiveRupees]).heap.derefAll (selecting [FiveRupees]).coinList
      = some [FiveRupees]
    ∧ (selecting [FiveRupees]).inventory.find 3 = some (some Soda)
    ∧ (step (selecting [FiveRupees]) (Action.selectProduct 3)).map
        (fun r => (r.1, r.2.vendingMachineState, r.2.coinList))
      = some (Returned.void, State.IdleState, [])
    ∧ (step (selecting [FiveRupees]) (Action.selectProduct 3)).map
        (fun r => (r.2.heap.deref 1, r.2.heap))
      = some (none, [])
    ∧ (step (selecting [FiveRupees]) (Action.selectProduct 3)).map (fun r => r.2.cout)
      = some ((selecting [FiveRupees]).cout
          ++ [Line.cancelRequest, Line.inIdleState, Line.insufficientMoney]) := by
  decide

/-- C4, as stated, fails: with a coin of value `INT_MAX` and a coin of 1 the
sum of the coin values is 2147483648, more than the price 5 of code 0, but
the `int` total of `selectProduct` is -2147483648, and `selectProduct` takes
the insufficient-funds path: the machine ends idle, not dispensing. -/
theorem sufficient_payment_overflow :
    (selecting [maxCoin, OneRupee]).vendingMachineState = State.ProductSelectionState
    ∧ (selecting [maxCoin, OneRupee]).inventory.find 0 = some (some Coke)
    ∧ (selecting [maxCoin, OneRupee]).heap.derefAll (selecting [maxCoin, OneRupee]).coinList
        = some [maxCoin, OneRupee]
    ∧ Coke.price ≤ ([maxCoin, OneRupee].map Coin.value).sum
    ∧ ([maxCoin, OneRupee].map Coin.value).sum = 2147483648
    ∧ amountPaid (selecting [maxCoin, OneRupee]).heap (selecting [maxCoin, OneRupee]).coinList 0
        = some (-2147483648)
    ∧ ((selecting [maxCoin, OneRupee]).selectProduct 0).map
        (fun after => (after.vendingMachineState,
          decide (Line.insufficientMoney ∈ after.cout)))
      = some (State.IdleState, true) := by
  decide

/-- C4, amended: in the product-selection state, when every coin of the coin
list exists, for a code whose item is in the catalog and costs at most the
sum `paid` of the coin values, and when `paid` and `paid - price` are values
of type `int`, `selectProduct` leaves the machine in the dispensing state;
the change it computes is `paid - price`, and the line reporting it is printed
exactly when that difference is positive (nothing is reported when
`paid = price`). -/
theorem sufficient_payment_dispenses (machine : VendingMachine) (code : Int) (item : Item)
    (coins : List Coin)
    (hs : machine.vendingMachineState = .ProductSelectionState)
    (hc : machine.inventory.find code = some (some item))
    (hcoins : machine.heap.derefAll machine.coinList = some coins)
    (hp : item.price ≤ (coins.map Coin.value).sum)
    (hpaid : isInt (coins.map Coin.value).sum)
    (hchange : isInt ((coins.map Coin.value).sum - item.price)) :
    ∃ after, machine.selectProduct code = some after
      ∧ after.vendingMachineState = State.DispensingState
      ∧ after.cout = machine.cout
          ++ (if 0 < (coins.map Coin.value).sum - item.price
              then [Line.changeReturned ((coins.map Coin.value).sum - item.price)]
              else [])
          ++ [Line.inDispensingState, Line.collectingItem item.type, Line.inIdleState] := by
  have hamount := amountPaid_of_isInt hcoins hpaid
  have hnot : ¬ (coins.map Coin.value).sum < item.price := not_lt.mpr hp
  rcases machine with ⟨coinList, state, inventory, cout, heap⟩
  simp only at hs hc hcoins hamount
  subst hs
  have hidx : inventory.index code = (some item, inventory) := Inventory.index_of_find hc
  by_cases hgt : item.price < (coins.map Coin.value).sum
  · have hpos : 0 < (coins.map Coin.value).sum - item.price := by omega
    simp [VendingMachine.selectProduct, VendingMachine.getVendingMachineState,
      ProductSelectionState.selectProduct, VendingMachine.getItemFromInventory, hidx,
      VendingMachine.getCoinList, hamount, Item.getPrice, hnot, hgt, hpos,
      wrapInt_of_isInt hchange, DispensingState.construct, DispensingState.collectProduct,
      ProductSelectionState.getChange, IdleState.construct,
      VendingMachine.setVendingMachineState, VendingMachine.print]
  · have hzero : ¬ 0 < (coins.map Coin.value).sum - item.price := by omega
    simp [VendingMachine.selectProduct, VendingMachine.getVendingMachineState,
      ProductSelectionState.selectProduct, VendingMachine.getItemFromInventory, hidx,
      VendingMachine.getCoinList, hamount, Item.getPrice, hnot, hgt, hzero,
      DispensingState.construct, DispensingState.collectProduct, IdleState.construct,
      VendingMachine.setVendingMachineState, VendingMachine.print]

/-- C4, amended, at concrete inputs: coins `[5, 5]` and code 0 (a Coke, price
5) give the dispensing state and the change line with 5; one coin of 5 and
code 0 give the dispensing state and no change line; the first result is also
obtained by running `selectProduct` on the input. -/
theorem sufficient_payment_dispenses_witness :
    (∃ after, (selecting [FiveRupees, FiveRupees]).selectProduct 0 = some after
      ∧ after.vendingMachineState = State.DispensingState
      ∧ after.cout = [Line.inIdleState, Line.inAcceptingCoinState, Line.acceptingCoin 5,
          Line.acceptingCoin 5, Line.inProductSelectionState, Line.changeReturned 5,
          Line.inDispensingState, Line.collectingItem "Coke", Line.inIdleState])
    ∧ (∃ after, (selecting [FiveRupees]).selectProduct 0 = some after
      ∧ after.vendingMachineState = State.DispensingState
      ∧ after.cout = [Line.inIdleState, Line.inAcceptingCoinState, Line.acceptingCoin 5,
          Line.inProductSelectionState,
          Line.inDispensingState, Line.collectingItem "Coke", Line.inIdleState])
    ∧ ((selecting [FiveRupees, FiveRupees]).selectProduct 0).map
        (fun after => (after.vendingMachineState, after.cout.drop 5))
      = some (State.DispensingState, [Line.changeReturned 5, Line.inDispensingState,
          Line.collectingItem "Coke", Line.inIdleState]) :=
  ⟨sufficient_payment_dispenses (selecting [FiveRupees, FiveRupees]) 0
      { type := "Coke", price := 5 } [{ value := 5 }, { value := 5 }]
      (by decide) (by decide) (by decide) (by decide) (by decide) (by decide),
    sufficient_payment_dispenses (selecting [FiveRupees]) 0
      { type := "Coke", price := 5 } [{ value := 5 }]
      (by decide) (by decide) (by decide) (by decide) (by decide) (by decide),
    by decide⟩

/-- C5: the code at coins `[5, 5]` and code 0 (price 5, overpaid), and at
coins `[5]` and code 0 (paid exactly): after the successful `selectProduct`
the machine is in the dispensing state and the coin list still holds every
inserted coin, each with its object; it is not emptied. -/
theorem selectProduct_success_keeps_coins :
    ((selecting [FiveRupees, FiveRupees]).selectProduct 0).map
        (fun after => (after.vendingMachineState, after.coinList,
          after.heap.derefAll after.coinList))
      = some (State.DispensingState, [1, 2], some [FiveRupees, FiveRupees])
    ∧ ((selecting [FiveRupees]).selectProduct 0).map
        (fun after => (after.vendingMachineState, after.coinList,
          after.heap.derefAll after.coinList))
      = some (State.DispensingState, [1], some [FiveRupees]) := by
  decide

/-! ## Whole transactions -/

/-- C6: the code on the action sequence `pressInsertCoinButton`,
`insertCoin(5)`, `pressSelectProductButton`, `selectProduct(0)`,
`collectProduct(0)` from a freshly constructed machine (the coin of 5 is the
object at address 1): the purchase completes, the machine is idle again, and
the coin list still holds the coin of 5. -/
theorem idle_with_coins_after_purchase :
    (run (VendingMachine.construct [] (allocate 1 [FiveRupees]))
        [Action.pressInsertCoinButton, Action.insertCoin 1,
          Action.pressSelectProductButton, Action.selectProduct 0,
          Action.collectProduct 0]).map
        (fun after => (after.vendingMachineState, after.coinList,
          after.heap.derefAll after.coinList))
      = some (State.IdleState, [1], some [FiveRupees]) := by
  decide

/-- C7: the code on a purchase of code 0 with coins `[5, 5]`: no item has
been collected before `selectProduct`; `selectProduct` itself collects the item
once (through the constructor of `DispensingState`) and leaves the machine in
the dispensing state; the following `collectProduct` collects a second time
and leaves the machine idle. -/
theorem purchase_collects_twice :
    collectCount (selecting [FiveRupees, FiveRupees]).cout = 0
    ∧ ((selecting [FiveRupees, FiveRupees]).selectProduct 0).map
        (fun after => (after.vendingMachineState, collectCount after.cout))
      = some (State.DispensingState, 1)
    ∧ (run (selecting [FiveRupees, FiveRupees])
        [Action.selectProduct 0, Action.collectProduct 0]).map
        (fun after => (after.vendingMachineState, collectCount after.cout))
      = some (State.IdleState, 2) := by
  decide

/-! ## Collecting the product -/

/-- C8, as stated, fails: after a successful `selectProduct(0)` (a Coke),
`collectProduct(3)` returns the item of code 3, a Soda, not the item of the
selected code 0. -/
theorem collectProduct_ignores_selected_code :
    (((selecting [FiveRupees, FiveRupees]).selectProduct 0).bind
        (fun dispensing => dispensing.collectProduct 3)).map Prod.fst = some (some Soda)
    ∧ (selecting [FiveRupees, FiveRupees]).inventory.find 0 = some (some Coke)
    ∧ Soda ≠ Coke := by
  decide

/-- C8, amended: when `selectProduct(c)` in the product-selection state has
succeeded (it returned and left the machine in the dispensing state),
`collectProduct(d)` for a code `d` whose item is in the catalog returns the
catalog item of `d`, the code passed to `collectProduct`, whatever code `c`
was selected, and moves the machine to the idle state. -/
theorem collectProduct_returns_item_of_passed_code (machine dispensing : VendingMachine)
    (c d : Int) (itemD : Item)
    (hs : machine.vendingMachineState = .ProductSelectionState)
    (hsel : machine.selectProduct c = some dispensing)
    (hdisp : dispensing.vendingMachineState = .DispensingState)
    (hd : machine.inventory.find d = some (some itemD)) :
    ∃ after, dispensing.collectProduct d = some (some itemD, after)
      ∧ after.vendingMachineState = State.IdleState := by
  obtain ⟨_, _, _, _, _, _, hinventory, _⟩ := selectProduct_dispensing_inv hs hsel hdisp
  rw [← hinventory] at hd
  exact ⟨_, collectProduct_of_dispensing hdisp hd, rfl⟩

/-- C8, amended, at a concrete input: coins `[5, 5]`, selected code 0 (a
Coke), collected code 3: the Soda is returned. -/
theorem collectProduct_returns_item_of_passed_code_witness :
    ∃ dispensing after,
      (selecting [FiveRupees, FiveRupees]).selectProduct 0 = some dispensing
      ∧ dispensing.vendingMachineState = State.DispensingState
      ∧ dispensing.collectProduct 3 = some (some { type := "Soda", price := 10 }, after)
      ∧ after.vendingMachineState = State.IdleState := by
  have hsel := @selectProduct_of_covered (selecting [FiveRupees, FiveRupees]) 0 Coke 10
    (by decide) (by decide) (by decide) (by decide)
  obtain ⟨after, hcollect, hidle⟩ :=
    collectProduct_returns_item_of_passed_code (selecting [FiveRupees, FiveRupees]) _ 0 3
      { type := "Soda", price := 10 } (by decide) hsel rfl (by decide)
  exact ⟨_, after, hsel, rfl, hcollect, hidle⟩

/-- C9: when `collectProduct` on a machine in the dispensing state has
returned, the machine is idle, and a second `collectProduct`, with any code,
is rejected: it returns no item (`nullptr`) and leaves the state idle and the
coin list and the inventory unchanged. -/
theorem second_collectProduct_rejected (machine idle : VendingMachine) (code second : Int)
    (returned : Option Item)
    (hs : machine.vendingMachineState = .DispensingState)
    (hfirst : machine.collectProduct code = some (returned, idle)) :
    idle.vendingMachineState = State.IdleState
      ∧ ∃ after, idle.collectProduct second = some (none, after)
        ∧ after.vendingMachineState = State.IdleState
        ∧ after.coinList = idle.coinList
        ∧ after.inventory = idle.inventory
        ∧ after.cout = idle.cout ++ [Line.methodNotSupported] := by
  have hidle : idle.vendingMachineState = State.IdleState := by
    simp only [VendingMachine.collectProduct, VendingMachine.getVendingMachineState, hs,
      DispensingState.collectProduct] at hfirst
    split at hfirst
    · exact absurd hfirst (by simp)
    · simp only [Option.some.injEq, Prod.mk.injEq] at hfirst
      rw [← hfirst.2]
      rfl
  refine ⟨hidle, idle.print .methodNotSupported, ?_, hidle, rfl, rfl, rfl⟩
  simp [VendingMachine.collectProduct, VendingMachine.getVendingMachineState, hidle,
    State.collectProduct]

/-- C9 at a concrete input: a dispensing machine, first `collectProduct(0)`,
then `collectProduct(0)` again. -/
theorem second_collectProduct_rejected_witness :
    ∃ idle, dispensingExample.collectProduct 0 = some (some Coke, idle)
      ∧ idle.vendingMachineState = State.IdleState
      ∧ ∃ after, idle.collectProduct 0 = some (none, after)
        ∧ after.vendingMachineState = State.IdleState
        ∧ after.coinList = idle.coinList
        ∧ after.inventory = idle.inventory
        ∧ after.cout = idle.cout ++ [Line.methodNotSupported] :=
  ⟨_, collectProduct_of_dispensing (by decide) (by decide),
    second_collectProduct_rejected dispensingExample _ 0 0 (some Coke) (by decide)
      (collectProduct_of_dispensing (by decide) (by decide))⟩

/-! ## Inserting coins -/

/-- C11: the code at the absent product code 7 (and at -1), in the
product-selection state with one coin of 5: `getItemFromInventory` hands back
`nullptr` for the code, `selectProduct` goes on to call `getPrice` through that
null pointer, and the call has no result at all; no error is reported. -/
theorem selectProduct_unknown_code_no_result :
    (selecting [FiveRupees]).vendingMachineState = State.ProductSelectionState
    ∧ (selecting [FiveRupees]).inventory.find 7 = none
    ∧ ((selecting [FiveRupees]).getItemFromInventory 7).1 = none
    ∧ (selecting [FiveRupees]).selectProduct 7 = none
    ∧ (selecting [FiveRupees]).inventory.find (-1) = none
    ∧ (selecting [FiveRupees]).selectProduct (-1) = none := by
  decide

/-- C12: the code at the absent product code 7 on a freshly constructed
machine: `getItemFromInventory(7)` returns `nullptr` and leaves a new entry
for key 7 in the inventory map, which is then no longer the map built by the
constructor. -/
theorem getItemFromInventory_inserts_unknown_code :
    VendingMachine.fresh.inventory.find 7 = none
    ∧ (VendingMachine.fresh.getItemFromInventory 7).1 = none
    ∧ (VendingMachine.fresh.getItemFromInventory 7).2.inventory
        = VendingMachine.fresh.inventory ++ [(7, none)]
    ∧ (VendingMachine.fresh.getItemFromInventory 7).2.inventory.find 7 = some none
    ∧ (VendingMachine.fresh.getItemFromInventory 7).2.inventory
        ≠ VendingMachine.fresh.inventory := by
  decide

/-! ## Buttons and construction -/

/-- C13: `pressInsertCoinButton` on an idle machine yields the accepting-coin
state and `pressSelectProductButton` on a machine that accepts coins yields the
product-selection state; in both cases the coin list and the inventory are
unchanged. -/
theorem button_transitions_keep_ledger (idle accepting : VendingMachine)
    (hidle : idle.vendingMachineState = .IdleState)
    (haccepting : accepting.vendingMachineState = .AcceptingCoinState) :
    (idle.pressInsertCoinButton.vendingMachineState = State.AcceptingCoinState
      ∧ idle.pressInsertCoinButton.coinList = idle.coinList
      ∧ idle.pressInsertCoinButton.inventory = idle.inventory)
    ∧ (accepting.pressSelectProductButton.vendingMachineState = State.ProductSelectionState
      ∧ accepting.pressSelectProductButton.coinList = accepting.coinList
      ∧ accepting.pressSelectProductButton.inventory = accepting.inventory) := by
  constructor
  · simp [VendingMachine.pressInsertCoinButton, VendingMachine.getVendingMachineState, hidle,
      IdleState.pressInsertCoinButton, AcceptingCoinState.construct, VendingMachine.print,
      VendingMachine.setVendingMachineState]
  · simp [VendingMachine.pressSelectProductButton, VendingMachine.getVendingMachineState,
      haccepting, AcceptingCoinState.pressSelectProductButton,
      ProductSelectionState.construct, VendingMachine.print,
      VendingMachine.setVendingMachineState]

/-- C13 at a concrete input: a freshly constructed machine, and the machine
that accepts coins after two coins of 5. -/
theorem button_transitions_keep_ledger_witness :
    (VendingMachine.fresh.pressInsertCoinButton.vendingMachineState
        = State.AcceptingCoinState
      ∧ VendingMachine.fresh.pressInsertCoinButton.coinList = VendingMachine.fresh.coinList
      ∧ VendingMachine.fresh.pressInsertCoinButton.inventory = VendingMachine.fresh.inventory)
    ∧ ((accepting [FiveRupees, FiveRupees]).pressSelectProductButton.vendingMachineState
        = State.ProductSelectionState
      ∧ (accepting [FiveRupees, FiveRupees]).pressSelectProductButton.coinList
        = (accepting [FiveRupees, FiveRupees]).coinList
      ∧ (accepting [FiveRupees, FiveRupees]).pressSelectProductButton.inventory
        = (accepting [FiveRupees, FiveRupees]).inventory) :=
  button_transitions_keep_ledger VendingMachine.fresh (accepting [FiveRupees, FiveRupees])
    (by decide) (by decide)

/-- C14: a freshly constructed machine is idle with an empty coin list, and
its catalog has exactly the six codes 0 to 5: codes 0, 1, 2 hold an item named
"Coke" of price 5, codes 3, 4, 5 an item named "Soda" of price 10, and no
other code has an entry. -/
theorem fresh_machine_catalog :
    VendingMachine.fresh.vendingMachineState = State.IdleState
    ∧ VendingMachine.fresh.coinList = []
    ∧ VendingMachine.fresh.inventory.map Prod.fst = [0, 1, 2, 3, 4, 5]
    ∧ ∀ code : Int, VendingMachine.fresh.inventory.find code =
        if 0 ≤ code ∧ code ≤ 2 then some (some { type := "Coke", price := 5 })
        else if 3 ≤ code ∧ code ≤ 5 then some (some { type := "Soda", price := 10 })
        else none := by
  refine ⟨rfl, rfl, by decide, ?_⟩
  intro code
  have hinv : VendingMachine.fresh.inventory
      = [(0, some Coke), (1, some Coke), (2, some Coke),
         (3, some Soda), (4, some Soda), (5, some Soda)] := by decide
  rw [hinv]
  simp only [Inventory.find, Coke, Soda]
  split_ifs <;> first | rfl | omega

/-! ## Coins carried into the next transaction -/

/-- C15: on a freshly constructed machine the sequence `pressInsertCoinButton`,
`insertCoin(5)`, `insertCoin(5)`, `pressSelectProductButton`,
`selectProduct(0)`, `collectProduct(0)`, `pressInsertCoinButton`,
`pressSelectProductButton`, `selectProduct(3)` (the two coins of 5 are the
objects at the addresses 1 and 2) ends in the dispensing state without any
"Insufficient Money" line, although no coin is inserted in the second
transaction: the first purchase leaves the two coins in the coin list (after
`selectProduct(0)` and after `collectProduct(0)` alike), and they pay for the
item of price 10. -/
theorem coins_carry_over :
    (run (VendingMachine.construct [] (allocate 1 [FiveRupees, FiveRupees]))
        [Action.pressInsertCoinButton, Action.insertCoin 1,
          Action.insertCoin 2, Action.pressSelectProductButton,
          Action.selectProduct 0]).map
        (fun after => (after.vendingMachineState, after.coinList,
          after.heap.derefAll after.coinList))
      = some (State.DispensingState, [1, 2], some [FiveRupees, FiveRupees])
    ∧ (run (VendingMachine.construct [] (allocate 1 [FiveRupees, FiveRupees]))
        [Action.pressInsertCoinButton, Action.insertCoin 1,
          Action.insertCoin 2, Action.pressSelectProductButton,
          Action.selectProduct 0, Action.collectProduct 0]).map
        (fun after => (after.vendingMachineState, after.coinList,
          after.heap.derefAll after.coinList))
      = some (State.IdleState, [1, 2], some [FiveRupees, FiveRupees])
    ∧ (run (VendingMachine.construct [] (allocate 1 [FiveRupees, FiveRupees]))
        [Action.pressInsertCoinButton, Action.insertCoin 1,
          Action.insertCoin 2, Action.pressSelectProductButton,
          Action.selectProduct 0, Action.collectProduct 0,
          Action.pressInsertCoinButton, Action.pressSelectProductButton,
          Action.selectProduct 3]).map
        (fun after => (after.vendingMachineState, after.coinList,
          after.heap.derefAll after.coinList))
      = some (State.DispensingState, [1, 2], some [FiveRupees, FiveRupees])
    ∧ (run (VendingMachine.construct [] (allocate 1 [FiveRupees, FiveRupees]))
        [Action.pressInsertCoinButton, Action.insertCoin 1,
          Action.insertCoin 2, Action.pressSelectProductButton,
          Action.selectProduct 0, Action.collectProduct 0,
          Action.pressInsertCoinButton, Action.pressSelectProductButton,
          Action.selectProduct 3]).map
        (fun after => (decide (Line.insufficientMoney ∈ after.cout), collectCount after.cout))
      = some (false, 3) := by
  refine ⟨?_, ?_, ?_, ?_⟩ <;> decide

end VendingMachineCpp

namespace ParkingLotCpp

/-! ## Auxiliary facts about the grid -/

/-- A read that succeeds names indices in range and the floor and row they
select. -/
theorem Spots.read_eq_some {spots : Spots} {floor row spot : Int} {cell : Option Vehicle}
    (h : spots.read floor row spot = some cell) :
    0 ≤ floor ∧ 0 ≤ row ∧ 0 ≤ spot ∧
      ∃ theFloor theRow, spots[floor.toNat]? = some theFloor
        ∧ theFloor[row.toNat]? = some theRow ∧ theRow[spot.toNat]? = some cell := by
  unfold Spots.read at h
  split_ifs at h with hnonneg
  obtain ⟨hf, hr, hs⟩ := hnonneg
  refine ⟨hf, hr, hs, ?_⟩
  match hfloor : spots[floor.toNat]? with
  | none => simp [hfloor] at h
  | some theFloor =>
    match hrow : theFloor[row.toNat]? with
    | none => simp [hfloor, hrow] at h
    | some theRow =>
      simp only [hfloor, hrow] at h
      exact ⟨theFloor, theRow, rfl, hrow, h⟩

/-- Reading after a write at indices in range: the written value at the
written position, the old value everywhere else. -/
theorem Spots.read_write {spots : Spots} {floor row spot : Int} {cell : Option Vehicle}
    (h : spots.read floor row spot = some cell) (vehicle : Option Vehicle)
    (floor2 row2 spot2 : Int) :
    (spots.write floor row spot vehicle).read floor2 row2 spot2 =
      if floor2 = floor ∧ row2 = row ∧ spot2 = spot then some vehicle
      else spots.read floor2 row2 spot2 := by
  obtain ⟨hf, hr, hs, theFloor, theRow, hfloor, hrow, hspot⟩ := Spots.read_eq_some h
  have hflt : floor.toNat < spots.length := (List.getElem?_eq_some_iff.mp hfloor).1
  have hrlt : row.toNat < theFloor.length := (List.getElem?_eq_some_iff.mp hrow).1
  have hslt : spot.toNat < theRow.length := (List.getElem?_eq_some_iff.mp hspot).1
  simp only [Spots.write, hfloor, hrow]
  unfold Spots.read
  by_cases hnonneg : 0 ≤ floor2 ∧ 0 ≤ row2 ∧ 0 ≤ spot2
  · obtain ⟨hf2, hr2, hs2⟩ := hnonneg
    simp only [hf2, hr2, hs2, and_self, if_true]
    by_cases hfe : floor2 = floor
    · subst hfe
      simp only [List.getElem?_set_self hflt, hfloor, true_and]
      by_cases hre : row2 = row
      · subst hre
        simp only [List.getElem?_set_self hrlt, hrow, true_and]
        by_cases hse : spot2 = spot
        · subst hse
          simp [List.getElem?_set_self hslt]
        · have hne : spot.toNat ≠ spot2.toNat := by omega
          simp [List.getElem?_set_ne hne, hse]
      · have hne : row.toNat ≠ row2.toNat := by omega
        simp [List.getElem?_set_ne hne, hre]
    · have hne : floor.toNat ≠ floor2.toNat := by omega
      simp [List.getElem?_set_ne hne, hfe]
  · have hdiff : ¬ (floor2 = floor ∧ row2 = row ∧ spot2 = spot) := by
      rintro ⟨rfl, rfl, rfl⟩
      exact hnonneg ⟨hf, hr, hs⟩
    simp [hnonneg, hdiff]

/-- Writing back the element that is already there changes nothing. -/
theorem set_eq_self_of_get {α : Type} {l : List α} {i : Nat} {a : α}
    (h : l[i]? = some a) : l.set i a = l := by
  induction l generalizing i with
  | nil => rfl
  | cons first rest ih =>
    cases i with
    | zero =>
      have hfirst : first = a := by simpa using h
      simp [hfirst]
    | succ before =>
      have hbefore : rest[before]? = some a := by simpa using h
      simp [ih hbefore]

/-- A write at indices in range keeps the number of floors, of rows in each
floor and of spots in each row. -/
theorem Spots.shape_write {spots : Spots} {floor row spot : Int} {cell : Option Vehicle}
    (h : spots.read floor row spot = some cell) (vehicle : Option Vehicle) :
    (spots.write floor row spot vehicle).map (fun theFloor => theFloor.map List.length)
      = spots.map (fun theFloor => theFloor.map List.length) := by
  obtain ⟨_, _, _, theFloor, theRow, hfloor, hrow, _⟩ := Spots.read_eq_some h
  simp only [Spots.write, hfloor, hrow, List.map_set, List.length_set]
  apply set_eq_self_of_get
  rw [List.getElem?_map, hfloor, Option.map_some']
  congr 1
  symm
  apply set_eq_self_of_get
  rw [List.getElem?_map, hrow, Option.map_some']

/-- A row without the vehicle is scanned to its end. -/
theorem leaveRow_of_not_mem {row : List (Option Vehicle)} {vehicle : Vehicle}
    (h : some vehicle ∉ row) : leaveRow row (some vehicle) = none := by
  induction row with
  | nil => rfl
  | cons spot rest ih =>
    have hspot : spot ≠ some vehicle := fun e => h (e ▸ List.mem_cons_self _ _)
    have hrest : some vehicle ∉ rest := fun m => h (List.mem_cons_of_mem _ m)
    simp [leaveRow, hspot, ih hrest]

/-- Scanning a row into which the vehicle was written at an empty spot, and
which did not hold it before, gives back the row as it was. -/
theorem leaveRow_set {row : List (Option Vehicle)} {vehicle : Vehicle} {spot : Nat}
    (h : some vehicle ∉ row) (hempty : row[spot]? = some none) :
    leaveRow (row.set spot (some vehicle)) (some vehicle) = some row := by
  induction row generalizing spot with
  | nil => simp at hempty
  | cons first rest ih =>
    cases spot with
    | zero =>
      have hfirst : first = none := by simpa using hempty
      simp [leaveRow, hfirst]
    | succ before =>
      have hfirst : first ≠ some vehicle := fun e => h (e ▸ List.mem_cons_self _ _)
      have hrest : some vehicle ∉ rest := fun m => h (List.mem_cons_of_mem _ m)
      have hbefore : rest[before]? = some none := by simpa using hempty
      simp [leaveRow, hfirst, ih hrest hbefore]

/-- A floor without the vehicle is scanned to its end. -/
theorem leaveFloor_of_not_mem {floor : List (List (Option Vehicle))} {vehicle : Vehicle}
    (h : ∀ row ∈ floor, some vehicle ∉ row) : leaveFloor floor (some vehicle) = none := by
  induction floor with
  | nil => rfl
  | cons first rest ih =>
    have hfirst := leaveRow_of_not_mem (h first (List.mem_cons_self _ _))
    have hrest := ih (fun row m => h row (List.mem_cons_of_mem _ m))
    simp [leaveFloor, hfirst, hrest]

/-- The scan of a floor undoes a write of the vehicle into an empty spot of a
floor that did not hold it. -/
theorem leaveFloor_set {floor : List (List (Option Vehicle))} {vehicle : Vehicle}
    {row spot : Nat} {theRow : List (Option Vehicle)}
    (h : ∀ r ∈ floor, some vehicle ∉ r) (hrow : floor[row]? = some theRow)
    (hempty : theRow[spot]? = some none) :
    leaveFloor (floor.set row (theRow.set spot (some vehicle))) (some vehicle) = some floor := by
  induction floor generalizing row with
  | nil => simp at hrow
  | cons first rest ih =>
    cases row with
    | zero =>
      have hfirst : first = theRow := by simpa using hrow
      subst hfirst
      have hscan := leaveRow_set (h first (List.mem_cons_self _ _)) hempty
      simp [leaveFloor, hscan]
    | succ before =>
      have hfirst := leaveRow_of_not_mem (h first (List.mem_cons_self _ _))
      have hbefore : rest[before]? = some theRow := by simpa using hrow
      have hrest := ih (fun r m => h r (List.mem_cons_of_mem _ m)) hbefore
      simp [leaveFloor, hfirst, hrest]

/-- A grid without the vehicle is scanned to its end. -/
theorem leaveSpots_of_lacks {spots : Spots} {vehicle : Vehicle}
    (h : spots.lacks vehicle) : leaveSpots spots (some vehicle) = none := by
  induction spots with
  | nil => rfl
  | cons first rest ih =>
    have hfirst := leaveFloor_of_not_mem (h first (List.mem_cons_self _ _))
    have hrest := ih (fun floor m => h floor (List.mem_cons_of_mem _ m))
    simp [leaveSpots, hfirst, hrest]

/-- The scan of the grid undoes a write of the vehicle into an empty spot of
a grid that did not hold it. -/
theorem leaveSpots_set {spots : Spots} {vehicle : Vehicle} {floor row spot : Nat}
    {theFloor : List (List (Option Vehicle))} {theRow : List (Option Vehicle)}
    (h : spots.lacks vehicle) (hfloor : spots[floor]? = some theFloor)
    (hrow : theFloor[row]? = some theRow) (hempty : theRow[spot]? = some none) :
    leaveSpots (spots.set floor (theFloor.set row (theRow.set spot (some vehicle))))
      (some vehicle) = some spots := by
  induction spots generalizing floor with
  | nil => simp at hfloor
  | cons first rest ih =>
    cases floor with
    | zero =>
      have hfirst : first = theFloor := by simpa using hfloor
      subst hfirst
      have hscan := leaveFloor_set (h first (List.mem_cons_self _ _)) hrow hempty
      simp [leaveSpots, hscan]
    | succ before =>
      have hfirst := leaveFloor_of_not_mem (h first (List.mem_cons_self _ _))
      have hbefore : rest[before]? = some theFloor := by simpa using hfloor
      have hrest := ih (fun fl m => h fl (List.mem_cons_of_mem _ m)) hbefore
      simp [leaveSpots, hfirst, hrest]

/-! ## Parking and leaving -/

/-- C16: `park` on a spot in range that already holds a vehicle returns
`false` and leaves the lot, and so the whole grid, unchanged; on an empty spot
in range it returns `true`, the spot then holds the given vehicle, every other
position reads as before, and the shape of the grid and the sizes are
unchanged. -/
theorem park_in_range (lot : ParkingLot) (vehicle : Vehicle) (floor row spot : Int)
    (cell : Option Vehicle) (hcell : lot.spots.read floor row spot = some cell) :
    (cell ≠ none → lot.park (some vehicle) floor row spot = some (false, lot))
    ∧ (cell = none →
        ∃ parked, lot.park (some vehicle) floor row spot = some (true, parked)
          ∧ parked.spots.read floor row spot = some (some vehicle)
          ∧ (∀ floor2 row2 spot2 : Int, ¬ (floor2 = floor ∧ row2 = row ∧ spot2 = spot) →
              parked.spots.read floor2 row2 spot2 = lot.spots.read floor2 row2 spot2)
          ∧ parked.spots.map (fun theFloor => theFloor.map List.length)
              = lot.spots.map (fun theFloor => theFloor.map List.length)
          ∧ parked.floors = lot.floors ∧ parked.rows = lot.rows
          ∧ parked.spotPerRows = lot.spotPerRows) := by
  constructor
  · intro hocc
    cases cell with
    | none => exact absurd rfl hocc
    | some occupant => simp [ParkingLot.park, hcell]
  · intro hnone
    subst hnone
    refine ⟨{ lot with spots := lot.spots.write floor row spot (some vehicle) }, ?_, ?_, ?_,
      Spots.shape_write hcell _, rfl, rfl, rfl⟩
    · simp [ParkingLot.park, hcell]
    · simp [Spots.read_write hcell]
    · intro floor2 row2 spot2 hne
      simp [Spots.read_write hcell, hne]

/-- C16 at concrete inputs: the car parked on the bus's spot (floor 1, row 0,
spot 2) of the lot holding the bus, and on the empty spot at floor 0, row 1,
spot 1 of the same lot. -/
theorem park_in_range_witness :
    lotWithBus.park (some car) 1 0 2 = some (false, lotWithBus)
    ∧ ∃ parked, lotWithBus.park (some car) 0 1 1 = some (true, parked)
        ∧ parked.spots.read 0 1 1 = some (some car)
        ∧ (∀ floor2 row2 spot2 : Int, ¬ (floor2 = 0 ∧ row2 = 1 ∧ spot2 = 1) →
            parked.spots.read floor2 row2 spot2 = lotWithBus.spots.read floor2 row2 spot2)
        ∧ parked.spots.map (fun theFloor => theFloor.map List.length)
            = lotWithBus.spots.map (fun theFloor => theFloor.map List.length)
        ∧ parked.floors = lotWithBus.floors ∧ parked.rows = lotWithBus.rows
        ∧ parked.spotPerRows = lotWithBus.spotPerRows :=
  ⟨(park_in_range lotWithBus car 1 0 2 (some bus) (by decide)).1 (by decide),
    (park_in_range lotWithBus car 0 1 1 none (by decide)).2 rfl⟩

/-- C17: for a vehicle that is nowhere in the grid, `leave` returns `false`
and leaves the lot unchanged; and for every empty spot in range, `park` of the
vehicle there followed by `leave` of the vehicle returns `true` both times and
gives back the lot exactly as it was before `park`. -/
theorem park_leave_round_trip (lot : ParkingLot) (vehicle : Vehicle)
    (habsent : lot.spots.lacks vehicle) :
    lot.leave (some vehicle) = some (false, lot)
    ∧ ∀ floor row spot : Int, lot.spots.read floor row spot = some none →
        ∃ parked, lot.park (some vehicle) floor row spot = some (true, parked)
          ∧ parked.leave (some vehicle) = some (true, lot) := by
  constructor
  · simp [ParkingLot.leave, leaveSpots_of_lacks habsent]
  · intro floor row spot hempty
    obtain ⟨_, _, _, theFloor, theRow, hfloor, hrow, hspot⟩ := Spots.read_eq_some hempty
    refine ⟨{ lot with spots := lot.spots.write floor row spot (some vehicle) }, ?_, ?_⟩
    · simp [ParkingLot.park, hempty]
    · have hscan := leaveSpots_set habsent hfloor hrow hspot
      simp [ParkingLot.leave, Spots.write, hfloor, hrow, hscan]

/-- C17 at a concrete input: the car, which is not in the lot holding the
bus, parked at floor 0, row 1, spot 1 as in `main`, then leaving. -/
theorem park_leave_round_trip_witness :
    lotWithBus.spots.lacks car
    ∧ lotWithBus.spots.read 0 1 1 = some none
    ∧ lotWithBus.leave (some car) = some (false, lotWithBus)
    ∧ ∃ parked, lotWithBus.park (some car) 0 1 1 = some (true, parked)
        ∧ parked.leave (some car) = some (true, lotWithBus) :=
  ⟨by unfold Spots.lacks; decide, by decide,
    (park_leave_round_trip lotWithBus car (by unfold Spots.lacks; decide)).1,
    (park_leave_round_trip lotWithBus car (by unfold Spots.lacks; decide)).2 0 1 1
      (by decide)⟩

end ParkingLotCpp
